import Mathlib

/-!
Verification of the LaundryTracker order-record aggregation and
reconciliation engine (src/App.tsx, src/types.ts, and the ResultsView
component) against its specification.

Shallow embedding conventions:
* JS numbers are modelled as rationals (ℚ); non-finite values (NaN,
  Infinity) are outside the embedding.  `NaN`-producing operations are
  modelled with `Option`.
* `laundry_weight_kg` is `number | string` in types.ts ("number or
  DATA_UNCLEAR"), modelled as an inductive with a numeric and an
  unclear-sentinel constructor.
* `price` may be absent on records restored from storage (the code
  guards every read with a falsy-default), modelled as `Option ℚ`.
* `new Date(ts).getFullYear()` / `getMonth()` use the local time zone;
  the environment's zone is fixed at UTC, so the civil calendar
  conversion is the standard days-to-civil-date algorithm.
* JS objects used as string-keyed maps preserve insertion order for the
  non-numeric keys used here; they are modelled as insertion-ordered
  association lists.
* Locale-dependent display formatting (`toLocaleDateString`,
  `toLocaleTimeString`) and the binary-float-to-string conversion used
  when a number is interpolated into a CSV cell are environment
  functions; they are taken as parameters.
-/

namespace LaundryTracker

/-- Model of `laundry_weight_kg : number | string` from src/types.ts:
a numeric weight in kilograms or the "DATA_UNCLEAR" sentinel string. -/
inductive WeightVal where
  | num (q : ℚ)
  | unclear
deriving DecidableEq

/-- Model of the `LaundryOrderResult` interface from src/types.ts. -/
structure LaundryOrderResult where
  laundry_service_name : String
  shopify_order_number : String
  customer_name : String
  delivery_address : String
  laundry_weight_kg : WeightVal
  price : Option ℚ
  extraction_confidence_score : ℚ
  timestamp : Int
  weight_image_src : Option String
  customer_image_src : Option String
deriving DecidableEq

/-! ### Calendar conversion (timestamp → year and month)

`new Date(timestamp)` interprets the integer as milliseconds since the
Unix epoch; `getFullYear` / `getMonth` read the civil calendar date
(environment time zone fixed at UTC, see header). -/

/-- Milliseconds per day. -/
def msPerDay : Int := 86400000

/-- The day number (days since 1970-01-01) containing the timestamp;
floor division, so negative timestamps land on the correct civil day. -/
def epochDay (ts : Int) : Int := ts.fdiv msPerDay

/-- Civil (proleptic Gregorian) year and 1-based month of a day number,
days counted from 1970-01-01.  Standard era-based conversion. -/
def civilFromDays (z0 : Int) : Int × Nat :=
  let z := z0 + 719468
  let era := z.fdiv 146097
  let doe := (z - era * 146097).toNat
  let yoe := (doe - doe / 1460 + doe / 36524 - doe / 146096) / 365
  let doy := doe - (365 * yoe + yoe / 4 - yoe / 100)
  let mp := (5 * doy + 2) / 153
  let m := if mp < 10 then mp + 3 else mp - 9
  let y := (yoe : Int) + era * 400 + (if m ≤ 2 then 1 else 0)
  (y, m)

/-- Model of `new Date(ts).getFullYear()`. -/
def getFullYear (ts : Int) : Int := (civilFromDays (epochDay ts)).1

/-- Model of `new Date(ts).getMonth() + 1` (1-based month). -/
def getMonth1 (ts : Int) : Nat := (civilFromDays (epochDay ts)).2

/-! ### Decimal rendering of numbers (model of JS template interpolation) -/

/-- The ASCII digit character for a value below ten. -/
def digitChar (n : Nat) : Char := Char.ofNat (48 + n)

/-- Decimal digits of `n`, most significant first; the first argument is
recursion fuel (any fuel of at least the digit count of `n` is enough). -/
def natStrAux : Nat → Nat → List Char
  | 0, _ => []
  | fuel + 1, n => if n = 0 then [] else natStrAux fuel (n / 10) ++ [digitChar (n % 10)]

/-- Decimal string of a natural number, as JS `String(n)` renders it. -/
def natStr (n : Nat) : String := if n = 0 then "0" else String.mk (natStrAux (n + 1) n)

/-- Decimal string of an integer, as JS `String(i)` renders it. -/
def intStr (i : Int) : String := if i < 0 then "-" ++ natStr i.natAbs else natStr i.toNat

/-- Model of JS `s.padStart(2, "0")`. -/
def padStart2 (s : String) : String := String.mk (List.replicate (2 - s.length) '0') ++ s

/-! ### The Aggregator (src/App.tsx lines 149-177) -/

/-- Model of JS `String.prototype.trim` (strip leading and trailing
whitespace). -/
def jsTrim (s : String) : String :=
  String.mk (((s.data.dropWhile Char.isWhitespace).reverse.dropWhile Char.isWhitespace).reverse)

/-- Model of JS `String.prototype.toLowerCase` (per-character lowercasing). -/
def jsToLower (s : String) : String := String.mk (s.data.map Char.toLower)

/-- The month sort key of a timestamp, from App.tsx line 154:
the year, a dash, and the zero-padded 1-based month. -/
def sortKey (ts : Int) : String :=
  intStr (getFullYear ts) ++ "-" ++ padStart2 (natStr (getMonth1 ts))

/-- `curr.laundry_service_name.trim()` (App.tsx line 163). -/
def rawServiceName (r : LaundryOrderResult) : String := jsTrim r.laundry_service_name

/-- `rawName.toLowerCase()` (App.tsx line 164), the service grouping key. -/
def serviceKey (r : LaundryOrderResult) : String := jsToLower (rawServiceName r)

/-- One service group of the aggregation: the display name (casing of
the first record encountered for the key) and its records.  The
locale-dependent month label is display-only and not modelled. -/
structure ServiceGroup where
  displayName : String
  records : List LaundryOrderResult
deriving DecidableEq

/-- The services of one month bucket, as an insertion-ordered map from
normalized service key to group. -/
abbrev MonthServices := List (String × ServiceGroup)

/-- The whole aggregation, as an insertion-ordered map from month sort
key to that month's services. -/
abbrev GroupedHistory := List (String × MonthServices)

/-- `if (!acc[k]) acc[k] = d; <mutate acc[k] with f>` on an
insertion-ordered string-keyed map: update the entry in place when the
key is present, append a fresh entry otherwise. -/
def updateAssoc {α : Type} (k : String) (d : α) (f : α → α) :
    List (String × α) → List (String × α)
  | [] => [(k, f d)]
  | (k', v) :: rest =>
    if k' = k then (k', f v) :: rest else (k', v) :: updateAssoc k d f rest

/-- Key lookup on an insertion-ordered string-keyed map. -/
def lookupAssoc {α : Type} (k : String) : List (String × α) → Option α
  | [] => none
  | (k', v) :: rest => if k' = k then some v else lookupAssoc k rest

/-- One step of the `history.reduce` in App.tsx lines 151-175: ensure the
month bucket and service group exist (the service group is created with
the current record's trimmed name as display name), then push the
record onto the group. -/
def addRecord (acc : GroupedHistory) (curr : LaundryOrderResult) : GroupedHistory :=
  updateAssoc (sortKey curr.timestamp) []
    (fun svcs =>
      updateAssoc (serviceKey curr) ⟨rawServiceName curr, []⟩
        (fun g => ⟨g.displayName, g.records ++ [curr]⟩) svcs)
    acc

/-- `groupedHistory` (App.tsx line 151): the two-level month → service
partition of the ledger. -/
def groupedHistory (history : List LaundryOrderResult) : GroupedHistory :=
  history.foldl addRecord []

/-- The month keys of the aggregation, in insertion order
(`Object.keys(groupedHistory)`). -/
def monthKeys (history : List LaundryOrderResult) : List String :=
  (groupedHistory history).map Prod.fst

/-- `sortedMonthKeys` (App.tsx line 177): month keys sorted
lexicographically ascending, then reversed. -/
def sortedMonthKeys (history : List LaundryOrderResult) : List String :=
  ((monthKeys history).insertionSort (· ≤ ·)).reverse

/-- `Number(record.laundry_weight_kg) || 0` (App.tsx line 364): a numeric
weight is itself, the unclear sentinel coerces to NaN and falls back
to 0. -/
def weightOrZero : WeightVal → ℚ
  | .num q => q
  | .unclear => 0

/-- `totalWeight` (App.tsx lines 363-366). -/
def totalWeight (records : List LaundryOrderResult) : ℚ :=
  records.foldl (fun sum r => sum + weightOrZero r.laundry_weight_kg) 0

/-- `totalPrice` (App.tsx lines 368-370); `record.price || 0` defaults a
missing price to 0. -/
def totalPrice (records : List LaundryOrderResult) : ℚ :=
  records.foldl (fun sum r => sum + r.price.getD 0) 0

/-- All records of one month bucket, in iteration order. -/
def serviceFlat (svcs : MonthServices) : List LaundryOrderResult :=
  svcs.flatMap (fun p => p.2.records)

/-- All records of the aggregation, in iteration order. -/
def groupedFlat (g : GroupedHistory) : List LaundryOrderResult :=
  g.flatMap (fun p => serviceFlat p.2)

/-- The service group stored for a month key and normalized service key. -/
def lookupService (history : List LaundryOrderResult) (mk sk : String) :
    Option ServiceGroup :=
  (lookupAssoc mk (groupedHistory history)).bind (fun svcs => lookupAssoc sk svcs)

/-- Membership test for the service group addressed by a month key and a
normalized service key. -/
def belongsTo (mk sk : String) (r : LaundryOrderResult) : Bool :=
  sortKey r.timestamp == mk && serviceKey r == sk

/-! ### parseFloat (model of the JS global used by ResultsView)

`parseFloat` skips leading whitespace, then reads the longest prefix of
the form sign, digits, optional point and digits, optional exponent,
and returns NaN when no digit was read.  NaN is modelled as `none`;
the non-finite "Infinity" spelling is outside the rational embedding
(spec section 4.1 leaves non-finite behavior unspecified). -/

/-- The numeric value of a list of decimal digit characters. -/
def digitsToNat (l : List Char) : Nat :=
  l.foldl (fun acc c => 10 * acc + (c.toNat - 48)) 0

/-- Split the longest prefix of decimal digits off a character list. -/
def takeDigits : List Char → List Char × List Char
  | [] => ([], [])
  | c :: rest =>
    if c.isDigit then
      let p := takeDigits rest
      (c :: p.1, p.2)
    else ([], c :: rest)

/-- Read an optional sign; `true` means negative. -/
def takeSign : List Char → Bool × List Char
  | '-' :: rest => (true, rest)
  | '+' :: rest => (false, rest)
  | l => (false, l)

/-- Read an optional exponent marker with signed digits; an exponent
marker not followed by a digit is not part of the parsed prefix, so it
contributes exponent 0. -/
def takeExponent (l : List Char) : Int :=
  match l with
  | 'e' :: rest | 'E' :: rest =>
    let sgn := takeSign rest
    let d := takeDigits sgn.2
    if d.1 = [] then 0
    else if sgn.1 then -(digitsToNat d.1 : Int) else (digitsToNat d.1 : Int)
  | _ => 0

/-- The syntactic parts of a successful `parseFloat`: sign, integer
digits, fraction digits with their count, and decimal exponent. -/
structure FloatParse where
  negative : Bool
  intPart : Nat
  fracPart : Nat
  fracLen : Nat
  exponent : Int
deriving DecidableEq

/-- The parsing phase of `parseFloat`; `none` is NaN. -/
def parseFloatParts (s : String) : Option FloatParse :=
  let l := s.data.dropWhile Char.isWhitespace
  let sgn := takeSign l
  let ip := takeDigits sgn.2
  let fp :=
    match ip.2 with
    | '.' :: rest => takeDigits rest
    | _ => ([], ip.2)
  if ip.1 = [] ∧ fp.1 = [] then none
  else some ⟨sgn.1, digitsToNat ip.1, digitsToNat fp.1, fp.1.length, takeExponent fp.2⟩

/-- The rational value denoted by the parsed parts. -/
def floatParseVal (p : FloatParse) : ℚ :=
  (if p.negative then -1 else 1) *
    ((p.intPart : ℚ) + (p.fracPart : ℚ) / 10 ^ p.fracLen) * 10 ^ p.exponent

/-- Model of JS `parseFloat`; `none` is NaN. -/
def parseFloat (s : String) : Option ℚ :=
  (parseFloatParts s).map floatParseVal

/-! ### The Edit/Recompute workflow (ResultsView, src/unnamed/part_000) -/

/-- The price-recompute effect (part_000 lines 28-36): parse the edited
weight text; if it is a number, price it with the shared
`calculatePrice` (services/geminiService, not part of the sources here,
so the Pricing Function is a parameter); otherwise force the price
to 0. -/
def recomputedPrice (calculatePrice : ℚ → ℚ) (editedWeight : String) : ℚ :=
  match parseFloat editedWeight with
  | some w => calculatePrice w
  | none => 0

/-- The working values of the editable draft fields in ResultsView:
the weight text, the continuously recomputed price, and the edited
customer name and delivery address. -/
structure DraftEdits where
  editedWeight : String
  currentPrice : ℚ
  editedName : String
  editedAddress : String

/-- `handleSave` (part_000 lines 38-48): the final record is the draft
with the edited weight parsed (falling back to 0 when not a number),
the current price, and the edited name and address; every other field
is spread from the draft unchanged. -/
def handleSave (data : LaundryOrderResult) (e : DraftEdits) : LaundryOrderResult :=
  { data with
    laundry_weight_kg := WeightVal.num ((parseFloat e.editedWeight).getD 0)
    price := some e.currentPrice
    customer_name := e.editedName
    delivery_address := e.editedAddress }

/-! ### Selection and batch deletion (App.tsx lines 82-105) -/

/-- The slice of App state that batch deletion touches. -/
structure AppState where
  history : List LaundryOrderResult
  isSelectionMode : Bool
  selectedTimestamps : Finset Int
deriving DecidableEq

/-- `deleteSelected` (App.tsx lines 97-105), with the answer of the
`window.confirm` gate as a parameter: an empty selection returns before
the gate; a confirmed deletion keeps exactly the records whose
timestamp is not selected, leaves selection mode and clears the
selection; a declined gate changes nothing. -/
def deleteSelected (confirmAnswer : Bool) (s : AppState) : AppState :=
  if s.selectedTimestamps = ∅ then s
  else if confirmAnswer then
    { history := s.history.filter (fun item => item.timestamp ∉ s.selectedTimestamps)
      isSelectionMode := false
      selectedTimestamps := ∅ }
  else s

/-! ### CSV export (App.tsx lines 107-147) -/

/-- `.replace(/"/g, a pair of double quotes)`: double every double
quote. -/
def escapeQuotes (s : String) : String :=
  String.mk (s.data.flatMap (fun c => if c = '"' then ['"', '"'] else [c]))

/-- `.replace(/\n/g, " ")`: turn every newline into one space. -/
def collapseNewlines (s : String) : String :=
  String.mk (s.data.map (fun c => if c = '\n' then ' ' else c))

/-- Surround with double quotes. -/
def quoteWrap (s : String) : String := "\"" ++ s ++ "\""

/-- A quoted CSV string field as App.tsx emits it (lines 128-130). -/
def quoteField (s : String) : String := quoteWrap (escapeQuotes s)

/-- The delivery-address field (line 131): quotes doubled, then
newlines replaced by spaces, then wrapped. -/
def addressField (s : String) : String := quoteWrap (collapseNewlines (escapeQuotes s))

/-- `(row.price || 0).toFixed(2)` uses JS `Number.prototype.toFixed`:
for a negative value, a minus sign and the rendering of the absolute
value; the value is scaled by 100 and rounded to the nearest integer,
half-way cases up. -/
def toFixed2 (q : ℚ) : String :=
  let sgn := if q < 0 then "-" else ""
  let x := if q < 0 then -q else q
  let n := (⌊x * 100 + 1 / 2⌋).toNat
  sgn ++ natStr (n / 100) ++ "." ++ padStart2 (natStr (n % 100))

/-- The weight cell (line 132): the stored value interpolated raw —
a number rendered by the environment's number-to-string conversion
`numStr`, the sentinel emitted verbatim, no quoting. -/
def weightField (numStr : ℚ → String) : WeightVal → String
  | .num q => numStr q
  | .unclear => "DATA_UNCLEAR"

/-- The header cells (App.tsx lines 110-119). -/
def csvHeaders : List String :=
  ["Date", "Time", "Laundry Service", "Order Number", "Customer Name",
    "Delivery Address", "Weight (kg)", "Price (EUR)"]

/-- One data row (lines 123-136): date and time cells from the
environment formatters `fmtDate` and `fmtTime`, quoted string fields,
the raw weight, and the price with two decimals; cells joined with
commas.  (The falsy-default on the string fields is the identity on
strings and is omitted.) -/
def csvRow (fmtDate fmtTime : Int → String) (numStr : ℚ → String)
    (row : LaundryOrderResult) : String :=
  String.intercalate ","
    [fmtDate row.timestamp, fmtTime row.timestamp,
      quoteField row.laundry_service_name,
      quoteField row.shopify_order_number,
      quoteField row.customer_name,
      addressField row.delivery_address,
      weightField numStr row.laundry_weight_kg,
      toFixed2 (row.price.getD 0)]

/-- `csvRows` (lines 121-136): the joined header row, then one pushed
row per record in ledger storage order. -/
def csvLines (fmtDate fmtTime : Int → String) (numStr : ℚ → String)
    (history : List LaundryOrderResult) : List String :=
  history.foldl (fun acc row => acc ++ [csvRow fmtDate fmtTime numStr row])
    [String.intercalate "," csvHeaders]

/-- `exportToCSV` (lines 107-147): an empty ledger returns before any
file is produced (`none`); otherwise the produced file content is the
rows joined with newlines. -/
def exportToCSV (fmtDate fmtTime : Int → String) (numStr : ℚ → String)
    (history : List LaundryOrderResult) : Option String :=
  if history.length = 0 then none
  else some (String.intercalate "\n" (csvLines fmtDate fmtTime numStr history))

/-- Modelled from the spec: a standard CSV parser's unquoting of one
quoted field (the repository has no importer).  The field must begin
and end with a double quote; inside, every double quote must be
doubled and denotes one literal double quote. -/
def unescapeQuotes : List Char → Option (List Char)
  | [] => some []
  | c :: rest =>
    if c = '"' then
      match rest with
      | '"' :: rest2 => (unescapeQuotes rest2).map (fun l => '"' :: l)
      | _ => none
    else (unescapeQuotes rest).map (fun l => c :: l)

/-- Modelled from the spec: standard CSV unquoting of a whole field,
see `unescapeQuotes`.  The field must start with a double quote and
end with a closing one; the content between them is unescaped. -/
def csvUnquote (s : String) : Option String :=
  if s.data.head? = some '"' ∧ s.data.tail.getLast? = some '"' then
    (unescapeQuotes s.data.tail.dropLast).map String.mk
  else none

/-! ### Ledger load (App.tsx lines 17-27) -/

/-- The `useState` initializer: read the stored blob; a missing blob or
an empty string is falsy and yields the empty ledger; otherwise the
blob is parsed by the environment's `JSON.parse` (a parameter — a
throw is the `Except.error` case) and any parse error is caught,
logged, and yields the empty ledger. -/
def loadHistory (stored : Option String)
    (parseJson : String → Except String (List LaundryOrderResult)) :
    List LaundryOrderResult :=
  match stored with
  | none => []
  | some s =>
    if s = "" then []
    else
      match parseJson s with
      | .ok l => l
      | .error _ => []

/-! ### Concrete example data (used by example clauses and witnesses) -/

/-- January 2024 record for service "Acme", weight 3 kg
(timestamp 1705276800000 = 2024-01-15). -/
def exAcmeJan1 : LaundryOrderResult :=
  ⟨"Acme", "1001", "Alice", "1 Main St", .num 3, some 6, 1, 1705276800000, none, none⟩

/-- Second January 2024 record for service "Acme", weight 4 kg
(timestamp 1705363200001 = 2024-01-16). -/
def exAcmeJan2 : LaundryOrderResult :=
  ⟨"Acme", "1002", "Bob", "2 Main St", .num 4, some 8, 1, 1705363200001, none, none⟩

/-- February 2024 record for service "Acme", weight 5 kg
(timestamp 1706745600000 = 2024-02-01). -/
def exAcmeFeb : LaundryOrderResult :=
  ⟨"Acme", "1003", "Carol", "3 Main St", .num 5, some 10, 1, 1706745600000, none, none⟩

/-- The example ledger of spec section 8: two January 2024 "Acme"
records of weights 3 and 4 and one February 2024 "Acme" record of
weight 5. -/
def exLedgerC2 : List LaundryOrderResult := [exAcmeJan1, exAcmeJan2, exAcmeFeb]

/-- The reference description of what the aggregation stores for a
month key and a service key: nothing when no record of the ledger
belongs there, otherwise the belonging records in ledger order with the
trimmed name of the first of them as display name. -/
def groupMatch (mk sk : String) (L : List LaundryOrderResult) : Option ServiceGroup :=
  match L.filter (belongsTo mk sk) with
  | [] => none
  | r :: rs => some ⟨rawServiceName r, r :: rs⟩

/-- Invariant of the aggregation fold: an accumulator agrees with
`groupMatch` over the records processed so far. -/
def AggInv (acc : GroupedHistory) (P : List LaundryOrderResult) : Prop :=
  ∀ mk sk,
    (lookupAssoc mk acc).bind (fun svcs => lookupAssoc sk svcs) = groupMatch mk sk P

/-- January 2024 record whose service name is "Acme". -/
def exW1 : LaundryOrderResult :=
  ⟨"Acme", "", "", "", .num 3, some 6, 1, 1705276800000, none, none⟩

/-- January 2024 record whose service name is "  acme " — a case and
whitespace variant of `exW1`. -/
def exW2 : LaundryOrderResult :=
  ⟨"  acme ", "", "", "", .num 4, some 8, 1, 1705363200001, none, none⟩

/-- Two-record ledger holding the two January 2024 name variants. -/
def exLedgerC3 : List LaundryOrderResult := [exW1, exW2]

/-- Concrete deletion scenario: two records in the ledger, selection
mode on, the first record's timestamp selected. -/
def exStateC4 : AppState := ⟨[exAcmeJan1, exAcmeJan2], true, {1705276800000}⟩

/-- A concrete stand-in for the environment's `JSON.parse` plus record
decoding: accepts one blob, throws on everything else. -/
def exParse : String → Except String (List LaundryOrderResult) :=
  fun s => if s = "[]good" then .ok [exAcmeJan1] else .error "SyntaxError"

/-- Draft working values whose weight text is the unedited unclear
sentinel. -/
def exDraftC10 : DraftEdits := ⟨"DATA_UNCLEAR", 0, "", ""⟩

/-- A concrete pricing function (three currency units per kilogram). -/
def exPricing : ℚ → ℚ := fun w => 3 * w

/-- A string has exactly two decimal places: it is some dot-free prefix,
a decimal point, and a two-character fraction. -/
def twoDecimals (s : String) : Prop :=
  ∃ pre f, f < 100 ∧ s = pre ++ "." ++ padStart2 (natStr f) ∧ '.' ∉ pre.data

/-- A concrete stand-in for the locale date formatter. -/
def exFmtDate : Int → String := fun _ => "1/15/2024"

/-- A concrete stand-in for the locale time formatter. -/
def exFmtTime : Int → String := fun _ => "12:00:00 AM"

/-- A concrete stand-in for the environment number-to-string
conversion. -/
def exNumStr : ℚ → String := fun _ => "3"

/-! ### Helper lemmas about the association-list operations -/

theorem foldl_add_map {α : Type} (w : α → ℚ) (l : List α) (a : ℚ) :
    l.foldl (fun s x => s + w x) a = a + (l.map w).sum := by
  induction l generalizing a with
  | nil => simp
  | cons x xs ih => simp [ih, add_assoc]

theorem lookupAssoc_updateAssoc_self {α : Type} (k : String) (d : α) (f : α → α)
    (l : List (String × α)) :
    lookupAssoc k (updateAssoc k d f l) = some (f ((lookupAssoc k l).getD d)) := by
  induction l with
  | nil => simp [updateAssoc, lookupAssoc]
  | cons p rest ih =>
    obtain ⟨k', v⟩ := p
    by_cases h : k' = k
    · simp [updateAssoc, lookupAssoc, h]
    · simp [updateAssoc, lookupAssoc, h, ih]

theorem lookupAssoc_updateAssoc_ne {α : Type} {j k : String} (h : j ≠ k) (d : α)
    (f : α → α) (l : List (String × α)) :
    lookupAssoc j (updateAssoc k d f l) = lookupAssoc j l := by
  have hkj : ¬ k = j := fun hh => h hh.symm
  induction l with
  | nil => simp [updateAssoc, lookupAssoc, hkj]
  | cons p rest ih =>
    obtain ⟨k', v⟩ := p
    by_cases hk : k' = k
    · subst hk
      simp [updateAssoc, lookupAssoc, hkj]
    · by_cases hj : k' = j
      · simp [updateAssoc, lookupAssoc, hk, hj, h]
      · simp [updateAssoc, lookupAssoc, hk, hj, ih]

theorem keys_updateAssoc {α : Type} (k : String) (d : α) (f : α → α)
    (l : List (String × α)) :
    (updateAssoc k d f l).map Prod.fst =
      if k ∈ l.map Prod.fst then l.map Prod.fst else l.map Prod.fst ++ [k] := by
  induction l with
  | nil => simp [updateAssoc]
  | cons p rest ih =>
    obtain ⟨k', v⟩ := p
    by_cases h : k' = k
    · simp [updateAssoc, h]
    · have hne : ¬ k = k' := fun hh => h hh.symm
      by_cases h2 : k ∈ rest.map Prod.fst <;>
        simp [updateAssoc, h, ih, h2, hne]

theorem nodup_keys_updateAssoc {α : Type} (k : String) (d : α) (f : α → α)
    {l : List (String × α)} (h : (l.map Prod.fst).Nodup) :
    ((updateAssoc k d f l).map Prod.fst).Nodup := by
  rw [keys_updateAssoc]
  by_cases hm : k ∈ l.map Prod.fst
  · simpa [hm] using h
  · simp only [hm, if_false, List.nodup_append]
    refine ⟨h, List.nodup_singleton _, ?_⟩
    intro a ha hb
    rw [List.mem_singleton] at hb
    subst hb
    exact hm ha

theorem nodup_keys_foldl (L : List LaundryOrderResult) :
    ∀ acc : GroupedHistory, (acc.map Prod.fst).Nodup →
      ((L.foldl addRecord acc).map Prod.fst).Nodup := by
  induction L with
  | nil => intro acc h; simpa using h
  | cons c L ih =>
    intro acc h
    exact ih (addRecord acc c) (nodup_keys_updateAssoc _ _ _ h)

theorem flat_updateAssoc_perm {α β : Type} (m : α → List β) (k : String) (d : α)
    (f : α → α) (c : β) (hf : ∀ a, (m (f a)).Perm (m a ++ [c])) (hd : m d = [])
    (l : List (String × α)) :
    ((updateAssoc k d f l).flatMap (fun p => m p.2)).Perm
      ((l.flatMap (fun p => m p.2)) ++ [c]) := by
  induction l with
  | nil => simpa [updateAssoc, hd] using hf d
  | cons p rest ih =>
    obtain ⟨k', v⟩ := p
    by_cases h : k' = k
    · subst h
      simp only [updateAssoc, if_pos rfl, List.flatMap_cons]
      have h1 : (m (f v) ++ rest.flatMap (fun p => m p.2)).Perm
          ((m v ++ [c]) ++ rest.flatMap (fun p => m p.2)) := (hf v).append_right _
      have h2 : ((m v ++ [c]) ++ rest.flatMap (fun p => m p.2)).Perm
          ((m v ++ rest.flatMap (fun p => m p.2)) ++ [c]) := by
        rw [List.append_assoc, List.append_assoc]
        exact List.Perm.append_left _ List.perm_append_comm
      exact h1.trans h2
    · simp only [updateAssoc, if_neg h, List.flatMap_cons]
      have h2 : (m v ++ ((updateAssoc k d f rest).flatMap (fun p => m p.2))).Perm
          (m v ++ (rest.flatMap (fun p => m p.2) ++ [c])) :=
        List.Perm.append_left _ ih
      simpa [List.append_assoc] using h2

theorem serviceFlat_update (svcs : MonthServices) (c : LaundryOrderResult) :
    (serviceFlat (updateAssoc (serviceKey c) ⟨rawServiceName c, []⟩
        (fun g => ⟨g.displayName, g.records ++ [c]⟩) svcs)).Perm
      (serviceFlat svcs ++ [c]) := by
  unfold serviceFlat
  exact flat_updateAssoc_perm (fun g => g.records) (serviceKey c)
    ⟨rawServiceName c, []⟩ (fun g => ⟨g.displayName, g.records ++ [c]⟩) c
    (fun a => List.Perm.refl _) rfl svcs

theorem groupedFlat_addRecord (acc : GroupedHistory) (c : LaundryOrderResult) :
    (groupedFlat (addRecord acc c)).Perm (groupedFlat acc ++ [c]) := by
  unfold groupedFlat addRecord
  exact flat_updateAssoc_perm serviceFlat (sortKey c.timestamp) []
    (fun svcs =>
      updateAssoc (serviceKey c) ⟨rawServiceName c, []⟩
        (fun g => ⟨g.displayName, g.records ++ [c]⟩) svcs) c
    (fun svcs => serviceFlat_update svcs c) rfl acc

theorem groupedFlat_foldl (L : List LaundryOrderResult) :
    ∀ acc : GroupedHistory,
      (groupedFlat (L.foldl addRecord acc)).Perm (groupedFlat acc ++ L) := by
  induction L with
  | nil => intro acc; simp
  | cons c L ih =>
    intro acc
    have h1 : (groupedFlat ((c :: L).foldl addRecord acc)).Perm
        (groupedFlat (addRecord acc c) ++ L) := ih (addRecord acc c)
    have h2 : (groupedFlat (addRecord acc c) ++ L).Perm
        ((groupedFlat acc ++ [c]) ++ L) :=
      (groupedFlat_addRecord acc c).append_right _
    have h3 : ((groupedFlat acc ++ [c]) ++ L) = groupedFlat acc ++ (c :: L) := by
      simp
    exact h1.trans (h3 ▸ h2)

theorem groupMatch_append_out (mk sk : String) (P : List LaundryOrderResult)
    (c : LaundryOrderResult) (hc : belongsTo mk sk c = false) :
    groupMatch mk sk (P ++ [c]) = groupMatch mk sk P := by
  rw [groupMatch, groupMatch, List.filter_append]
  simp [List.filter_cons, hc]

theorem AggInv_addRecord {acc : GroupedHistory} {P : List LaundryOrderResult}
    (h : AggInv acc P) (c : LaundryOrderResult) :
    AggInv (addRecord acc c) (P ++ [c]) := by
  intro mk sk
  have hP := h mk sk
  by_cases hmk : mk = sortKey c.timestamp
  · subst hmk
    rw [addRecord, lookupAssoc_updateAssoc_self]
    by_cases hsk : sk = serviceKey c
    · subst hsk
      rw [Option.some_bind, lookupAssoc_updateAssoc_self]
      have hbc : belongsTo (sortKey c.timestamp) (serviceKey c) c = true := by
        simp [belongsTo]
      rw [groupMatch, List.filter_append]
      rw [groupMatch] at hP
      cases hfp : P.filter (belongsTo (sortKey c.timestamp) (serviceKey c)) with
      | nil =>
        rw [hfp] at hP
        rcases hacc : lookupAssoc (sortKey c.timestamp) acc with _ | svcs
        · simp [hacc, lookupAssoc, hbc]
        · rw [hacc] at hP
          simp only [Option.some_bind] at hP
          rcases hsv : lookupAssoc (serviceKey c) svcs with _ | g
          · simp [hacc, hsv, hbc]
          · rw [hsv] at hP; exact absurd hP (by simp)
      | cons r rs =>
        rw [hfp] at hP
        rcases hacc : lookupAssoc (sortKey c.timestamp) acc with _ | svcs
        · rw [hacc] at hP; exact absurd hP (by simp)
        · rw [hacc] at hP
          simp only [Option.some_bind] at hP
          rcases hsv : lookupAssoc (serviceKey c) svcs with _ | g
          · rw [hsv] at hP; exact absurd hP (by simp)
          · rw [hsv] at hP
            simp only [Option.some.injEq] at hP
            subst hP
            simp [hacc, hsv, hbc]
    · rw [Option.some_bind, lookupAssoc_updateAssoc_ne hsk]
      have hbc : belongsTo (sortKey c.timestamp) sk c = false := by
        simp only [belongsTo, Bool.and_eq_false_iff, beq_eq_false_iff_ne]
        exact Or.inr (fun hh => hsk hh.symm)
      rw [groupMatch_append_out _ _ _ _ hbc]
      rw [← hP]
      rcases hacc : lookupAssoc (sortKey c.timestamp) acc with _ | svcs
      · simp [lookupAssoc]
      · simp
  · rw [addRecord, lookupAssoc_updateAssoc_ne hmk]
    have hbc : belongsTo mk sk c = false := by
      simp only [belongsTo, Bool.and_eq_false_iff, beq_eq_false_iff_ne]
      exact Or.inl (fun hh => hmk hh.symm)
    rw [groupMatch_append_out _ _ _ _ hbc]
    exact hP

theorem AggInv_foldl (L : List LaundryOrderResult) :
    ∀ (P : List LaundryOrderResult) (acc : GroupedHistory),
      AggInv acc P → AggInv (L.foldl addRecord acc) (P ++ L) := by
  induction L with
  | nil => intro P acc h; simpa using h
  | cons c L ih =>
    intro P acc h
    have := ih (P ++ [c]) (addRecord acc c) (AggInv_addRecord h c)
    simpa using this

theorem lookupService_eq_groupMatch (L : List LaundryOrderResult) (mk sk : String) :
    lookupService L mk sk = groupMatch mk sk L := by
  have h0 : AggInv [] [] := by
    intro mk sk
    simp [lookupAssoc, groupMatch]
  have := AggInv_foldl L [] [] h0
  simpa [lookupService, groupedHistory] using this mk sk

/-! ### Claim theorems -/

/-- C1: for every ledger L, the aggregation produces month buckets whose
"YYYY-MM" sort keys are strictly descending (most recent month first,
in the lexicographic string order that the zero-padded keys are built
for), and the multiset of all records contained in all service groups
of all month buckets is exactly L — no record duplicated or dropped.
The displayed key sequence `sortedMonthKeys` is a permutation of the
bucket keys of `groupedHistory`. -/
theorem C1_month_buckets_sorted_and_exact (L : List LaundryOrderResult) :
    List.Sorted (fun a b => a > b) (sortedMonthKeys L)
    ∧ (groupedFlat (groupedHistory L)).Perm L
    ∧ (sortedMonthKeys L).Perm (monthKeys L) := by
  have hnd : (monthKeys L).Nodup := nodup_keys_foldl L [] (by simp)
  have hperm := List.perm_insertionSort (fun a b : String => a ≤ b) (monthKeys L)
  have hsorted := List.sorted_insertionSort (fun a b : String => a ≤ b) (monthKeys L)
  have hnd2 : ((monthKeys L).insertionSort (fun a b : String => a ≤ b)).Nodup :=
    hperm.nodup_iff.mpr hnd
  have hlt := List.Sorted.lt_of_le hsorted hnd2
  refine ⟨List.pairwise_reverse.mpr hlt, ?_, (List.reverse_perm _).trans hperm⟩
  simpa [groupedFlat] using groupedFlat_foldl L []

/-- C2: for every list of records, `totalWeight` is the arithmetic sum
of the members' weights with the unclear sentinel contributing exactly
0, and `totalPrice` is the arithmetic sum of the members' prices with a
missing price contributing exactly 0; and the example ledger with two
January-2024 "Acme" records of weights 3 and 4 and one February-2024
"Acme" record of weight 5 yields exactly two month buckets, with
January's "Acme" group holding the two January records and having
total weight 7. -/
theorem C2_group_totals :
    (∀ rs : List LaundryOrderResult,
      totalWeight rs = (rs.map (fun r => weightOrZero r.laundry_weight_kg)).sum)
    ∧ (∀ rs : List LaundryOrderResult,
      totalPrice rs = (rs.map (fun r => r.price.getD 0)).sum)
    ∧ weightOrZero WeightVal.unclear = 0
    ∧ monthKeys exLedgerC2 = ["2024-01", "2024-02"]
    ∧ lookupService exLedgerC2 "2024-01" "acme" =
        some ⟨"Acme", [exAcmeJan1, exAcmeJan2]⟩
    ∧ totalWeight [exAcmeJan1, exAcmeJan2] = 7 := by
  refine ⟨?_, ?_, rfl, by decide, by decide, ?_⟩
  · intro rs
    simpa using foldl_add_map (fun r => weightOrZero r.laundry_weight_kg) rs 0
  · intro rs
    simpa using foldl_add_map (fun r => r.price.getD 0) rs 0
  · norm_num [totalWeight, exAcmeJan1, exAcmeJan2, weightOrZero]

/-- C3: service-group identity inside a month bucket is
case-insensitive and surrounding-whitespace-insensitive — any two
records of the same month whose service names are "Acme" and
"  acme " land in the same service group under the normalized key
"acme", and that group's display name is the trimmed name of whichever
record of that group came first in the partitioning iteration order. -/
theorem C3_service_identity (L : List LaundryOrderResult)
    (r1 r2 : LaundryOrderResult) (h1 : r1 ∈ L) (h2 : r2 ∈ L)
    (hmonth : sortKey r2.timestamp = sortKey r1.timestamp)
    (hn1 : r1.laundry_service_name = "Acme")
    (hn2 : r2.laundry_service_name = "  acme ") :
    ∃ g first,
      lookupService L (sortKey r1.timestamp) "acme" = some g ∧
      r1 ∈ g.records ∧ r2 ∈ g.records ∧
      (L.filter (belongsTo (sortKey r1.timestamp) "acme")).head? = some first ∧
      g.displayName = rawServiceName first := by
  have hk1 : serviceKey r1 = "acme" := by
    rw [serviceKey, rawServiceName, hn1]
    decide
  have hk2 : serviceKey r2 = "acme" := by
    rw [serviceKey, rawServiceName, hn2]
    decide
  have hb1 : belongsTo (sortKey r1.timestamp) "acme" r1 = true := by
    simp [belongsTo, hk1]
  have hb2 : belongsTo (sortKey r1.timestamp) "acme" r2 = true := by
    simp [belongsTo, hk2, hmonth]
  have hm1 : r1 ∈ L.filter (belongsTo (sortKey r1.timestamp) "acme") :=
    List.mem_filter.mpr ⟨h1, hb1⟩
  have hm2 : r2 ∈ L.filter (belongsTo (sortKey r1.timestamp) "acme") :=
    List.mem_filter.mpr ⟨h2, hb2⟩
  rw [lookupService_eq_groupMatch, groupMatch]
  cases hfp : L.filter (belongsTo (sortKey r1.timestamp) "acme") with
  | nil => rw [hfp] at hm1; exact absurd hm1 (by simp)
  | cons f rest =>
    rw [hfp] at hm1 hm2
    exact ⟨⟨rawServiceName f, f :: rest⟩, f, rfl, hm1, hm2, rfl, rfl⟩

/-- C3 witness: the two name variants in the same January-2024 bucket
do land in one group. -/
theorem C3_service_identity_witness :
    ∃ g first,
      lookupService exLedgerC3 (sortKey exW1.timestamp) "acme" = some g ∧
      exW1 ∈ g.records ∧ exW2 ∈ g.records ∧
      (exLedgerC3.filter (belongsTo (sortKey exW1.timestamp) "acme")).head? =
        some first ∧
      g.displayName = rawServiceName first :=
  C3_service_identity exLedgerC3 exW1 exW2 (by decide) (by decide) (by decide)
    (by decide) (by decide)

/-- C4: with the selection set nonempty and the confirmation gate
answering yes, batch deletion keeps exactly the records whose
timestamp is not selected, exits selecting mode, and clears the
selection set; with an empty selection set it is a no-op for every
gate answer. -/
theorem C4_delete_selected (s : AppState) :
    (s.selectedTimestamps ≠ ∅ →
      deleteSelected true s =
        ⟨s.history.filter (fun item => item.timestamp ∉ s.selectedTimestamps),
          false, ∅⟩)
    ∧ (s.selectedTimestamps = ∅ → ∀ answer, deleteSelected answer s = s) := by
  constructor
  · intro h
    simp [deleteSelected, h]
  · intro h answer
    simp [deleteSelected, h]

/-- C4 witness: deleting the selected first record of the concrete
two-record state keeps the second record only and clears the
selection state. -/
theorem C4_delete_selected_witness :
    exStateC4.selectedTimestamps ≠ ∅
    ∧ deleteSelected true exStateC4 = ⟨[exAcmeJan2], false, ∅⟩
    ∧ deleteSelected true ⟨[exAcmeJan1], false, ∅⟩ = ⟨[exAcmeJan1], false, ∅⟩ := by
  refine ⟨by decide, ?_, (C4_delete_selected ⟨[exAcmeJan1], false, ∅⟩).2 rfl true⟩
  rw [(C4_delete_selected exStateC4).1 (by decide)]
  decide

/-- C5: confirming a draft preserves confidence, timestamp, order
number, both image references and the service name from the original
draft, while the saved weight is the parse of the latest weight text
(0 when not a number), the saved price is the current working price,
and name and address are the latest edited values. -/
theorem C5_handleSave_frame (data : LaundryOrderResult) (e : DraftEdits) :
    (handleSave data e).extraction_confidence_score =
        data.extraction_confidence_score
    ∧ (handleSave data e).timestamp = data.timestamp
    ∧ (handleSave data e).shopify_order_number = data.shopify_order_number
    ∧ (handleSave data e).weight_image_src = data.weight_image_src
    ∧ (handleSave data e).customer_image_src = data.customer_image_src
    ∧ (handleSave data e).laundry_service_name = data.laundry_service_name
    ∧ (handleSave data e).laundry_weight_kg =
        WeightVal.num ((parseFloat e.editedWeight).getD 0)
    ∧ (handleSave data e).price = some e.currentPrice
    ∧ (handleSave data e).customer_name = e.editedName
    ∧ (handleSave data e).delivery_address = e.editedAddress :=
  ⟨rfl, rfl, rfl, rfl, rfl, rfl, rfl, rfl, rfl, rfl⟩

/-- C6: the continuously recomputed working price is the Pricing
Function applied to the parsed weight text whenever that text parses
as a number, is exactly 0 whenever it does not, and for the text
"12.5" is exactly the Pricing Function at 12.5. -/
theorem C6_price_recompute (calculatePrice : ℚ → ℚ) :
    (∀ s, parseFloat s = none → recomputedPrice calculatePrice s = 0)
    ∧ (∀ s w, parseFloat s = some w →
        recomputedPrice calculatePrice s = calculatePrice w)
    ∧ recomputedPrice calculatePrice "12.5" = calculatePrice (25 / 2) := by
  refine ⟨?_, ?_, ?_⟩
  · intro s h
    simp [recomputedPrice, h]
  · intro s w h
    simp [recomputedPrice, h]
  · have hp : parseFloatParts "12.5" = some ⟨false, 12, 5, 1, 0⟩ := by decide
    have h : parseFloat "12.5" = some (25 / 2) := by
      rw [parseFloat, hp, Option.map_some']
      norm_num [floatParseVal]
    simp [recomputedPrice, h]

/-- C6 witness: with the concrete pricing function, the unparsable
sentinel text prices to 0 and "12.5" prices to three times 12.5. -/
theorem C6_price_recompute_witness :
    parseFloat "DATA_UNCLEAR" = none
    ∧ recomputedPrice exPricing "DATA_UNCLEAR" = 0
    ∧ recomputedPrice exPricing "12.5" = exPricing (25 / 2) := by
  have hn : parseFloat "DATA_UNCLEAR" = none := by
    rw [parseFloat, show parseFloatParts "DATA_UNCLEAR" = none from by decide]
    rfl
  exact ⟨hn, (C6_price_recompute exPricing).1 _ hn,
    (C6_price_recompute exPricing).2.2⟩

/-- C9: loading the ledger at process start returns the stored record
sequence when the stored blob is present, non-empty (the empty string
is falsy and, being invalid JSON, could only have parsed to an error
anyway) and parses; on a parse failure, or with no stored blob, it
returns the empty ledger, and no error escapes the initializer. -/
theorem C9_load (parseJson : String → Except String (List LaundryOrderResult)) :
    (loadHistory none parseJson = [])
    ∧ (∀ s l, s ≠ "" → parseJson s = .ok l → loadHistory (some s) parseJson = l)
    ∧ (∀ s msg, parseJson s = .error msg → loadHistory (some s) parseJson = []) := by
  refine ⟨rfl, ?_, ?_⟩
  · intro s l hs hp
    simp [loadHistory, hs, hp]
  · intro s msg hp
    by_cases hs : s = ""
    · simp [loadHistory, hs]
    · simp [loadHistory, hs, hp]

/-- C9 witness: with the concrete parse stand-in, an absent blob and a
throwing blob load the empty ledger and the good blob loads its
records. -/
theorem C9_load_witness :
    loadHistory none exParse = []
    ∧ loadHistory (some "[]good") exParse = [exAcmeJan1]
    ∧ loadHistory (some "bad") exParse = [] := by
  refine ⟨(C9_load exParse).1, (C9_load exParse).2.1 _ _ (by decide) rfl,
    (C9_load exParse).2.2 _ "SyntaxError" rfl⟩

/-- C10: every record saved through the confirm step carries a numeric
weight — never the unclear sentinel, even though the data model can
represent it — and when the working weight text does not parse as a
number (the unedited sentinel text "DATA_UNCLEAR" among them) the
saved weight is exactly 0. -/
theorem C10_saved_weight_numeric :
    (∀ data e, (handleSave data e).laundry_weight_kg ≠ WeightVal.unclear)
    ∧ (∀ data e, parseFloat e.editedWeight = none →
        (handleSave data e).laundry_weight_kg = WeightVal.num 0)
    ∧ parseFloat "DATA_UNCLEAR" = none := by
  refine ⟨?_, ?_, ?_⟩
  · intro data e
    simp [handleSave]
  · intro data e h
    simp [handleSave, h]
  · rw [parseFloat, show parseFloatParts "DATA_UNCLEAR" = none from by decide]
    rfl

/-- C10 witness: saving the concrete draft whose weight text is the
unedited sentinel stores the numeric weight 0. -/
theorem C10_saved_weight_numeric_witness :
    parseFloat exDraftC10.editedWeight = none ∧
      (handleSave exAcmeJan1 exDraftC10).laundry_weight_kg = WeightVal.num 0 := by
  have hn : parseFloat exDraftC10.editedWeight = none :=
    C10_saved_weight_numeric.2.2
  exact ⟨hn, C10_saved_weight_numeric.2.1 exAcmeJan1 exDraftC10 hn⟩

/-! ### CSV lemmas (claims C7 and C8) -/

theorem foldl_push_eq_map {α β : Type} (g : α → β) (l : List α) :
    ∀ init : List β, l.foldl (fun acc x => acc ++ [g x]) init = init ++ l.map g := by
  induction l with
  | nil => intro init; simp
  | cons x xs ih =>
    intro init
    simp [ih]

theorem digitChar_isDigit {n : Nat} (h : n < 10) : (digitChar n).isDigit = true := by
  interval_cases n <;> decide

theorem natStrAux_digits (fuel : Nat) :
    ∀ n c, c ∈ natStrAux fuel n → c.isDigit = true := by
  induction fuel with
  | zero =>
    intro n c h
    simp [natStrAux] at h
  | succ fuel ih =>
    intro n c h
    rw [natStrAux] at h
    by_cases hn : n = 0
    · rw [if_pos hn] at h
      simp at h
    · rw [if_neg hn] at h
      rcases List.mem_append.mp h with h | h
      · exact ih _ _ h
      · rw [List.mem_singleton] at h
        subst h
        exact digitChar_isDigit (Nat.mod_lt _ (by norm_num))

theorem natStr_digits (n : Nat) : ∀ c ∈ (natStr n).data, c.isDigit = true := by
  intro c h
  rw [natStr] at h
  by_cases hn : n = 0
  · rw [if_pos hn] at h
    have h0 : ("0" : String).data = ['0'] := rfl
    rw [h0, List.mem_singleton] at h
    subst h
    decide
  · rw [if_neg hn] at h
    exact natStrAux_digits _ _ _ h

theorem isDigit_ne_dot {c : Char} (h : c.isDigit = true) : ¬ c = '.' := by
  intro heq
  subst heq
  exact absurd h (by decide)

theorem toFixed2_twoDecimals (q : ℚ) : twoDecimals (toFixed2 q) := by
  refine ⟨(if q < 0 then "-" else "") ++
      natStr ((⌊(if q < 0 then -q else q) * 100 + 1 / 2⌋).toNat / 100),
    (⌊(if q < 0 then -q else q) * 100 + 1 / 2⌋).toNat % 100,
    Nat.mod_lt _ (by norm_num), rfl, ?_⟩
  intro h
  rw [String.data_append] at h
  rcases List.mem_append.mp h with h | h
  · by_cases hq : q < 0
    · rw [if_pos hq] at h
      have hm : ("-" : String).data = ['-'] := rfl
      rw [hm, List.mem_singleton] at h
      exact absurd h (by decide)
    · rw [if_neg hq] at h
      exact absurd h (by decide)
  · exact isDigit_ne_dot (natStr_digits _ _ h) rfl

theorem toFixed2_zero : toFixed2 0 = "0.00" := by
  rw [toFixed2]
  norm_num
  decide

theorem unescape_escape (l : List Char) :
    unescapeQuotes (l.flatMap (fun c => if c = '"' then ['"', '"'] else [c])) =
      some l := by
  induction l with
  | nil => rfl
  | cons c rest ih =>
    by_cases hc : c = '"'
    · subst hc
      have hesc : (('"' : Char) :: rest).flatMap
            (fun c => if c = '"' then ['"', '"'] else [c]) =
          '"' :: '"' :: rest.flatMap (fun c => if c = '"' then ['"', '"'] else [c]) := by
        simp
      rw [hesc, unescapeQuotes.eq_2, if_pos rfl, ih]
      rfl
    · have hesc : (c :: rest).flatMap
            (fun c => if c = '"' then ['"', '"'] else [c]) =
          c :: rest.flatMap (fun c => if c = '"' then ['"', '"'] else [c]) := by
        simp [hc]
      rw [hesc]
      cases hE : rest.flatMap (fun c => if c = '"' then ['"', '"'] else [c]) with
      | nil =>
        rw [hE] at ih
        rw [unescapeQuotes.eq_3 c [] (fun r2 h => List.noConfusion h), if_neg hc, ih]
        rfl
      | cons e es =>
        rw [hE] at ih
        by_cases he : e = '"'
        · subst he
          rw [unescapeQuotes.eq_2, if_neg hc, ih]
          rfl
        · rw [unescapeQuotes.eq_3 c (e :: es)
            (by intro r2 h; injection h with h1 h2; exact he h1), if_neg hc, ih]
          rfl

theorem escapeQuotes_data (s : String) :
    (escapeQuotes s).data = s.data.flatMap (fun c => if c = '"' then ['"', '"'] else [c]) :=
  rfl

theorem quoteWrap_data (s : String) :
    (quoteWrap s).data = '"' :: (s.data ++ ['"']) := by
  rw [quoteWrap, String.data_append, String.data_append]
  rfl

theorem csvUnquote_quoteWrap (s t : String) (h : unescapeQuotes s.data = some t.data) :
    csvUnquote (quoteWrap s) = some t := by
  rw [csvUnquote, if_pos]
  · rw [quoteWrap_data]
    simp only [List.tail_cons, List.dropLast_concat]
    rw [h, Option.map_some']
  · rw [quoteWrap_data]
    simp [List.getLast?_concat]

theorem collapseNewlines_no_newline (s : String) :
    '\n' ∉ (collapseNewlines s).data := by
  intro h
  rw [collapseNewlines] at h
  have h2 : ('\n' : Char) ∈ s.data.map (fun c => if c = '\n' then ' ' else c) := h
  rcases List.mem_map.mp h2 with ⟨c, _, hc⟩
  by_cases hcn : c = '\n'
  · rw [if_pos hcn] at hc
    exact absurd hc (by decide)
  · rw [if_neg hcn] at hc
    exact hcn hc

/-- C7: exporting an empty ledger produces no file; exporting a
non-empty ledger produces exactly one header row followed by one row
per record in the ledger's storage order, joined by newlines; each row
has the cells Date, Time, quoted service, quoted order number, quoted
customer name, quoted address, raw unquoted weight, and the price; the
price cell always has exactly two decimal places and is "0.00" when
the price is absent; the weight cell is the raw stored value — the
environment rendering for a number, the sentinel text verbatim. -/
theorem C7_export_shape (fmtDate fmtTime : Int → String) (numStr : ℚ → String) :
    exportToCSV fmtDate fmtTime numStr [] = none
    ∧ (∀ history : List LaundryOrderResult, history ≠ [] →
        exportToCSV fmtDate fmtTime numStr history =
          some (String.intercalate "\n"
            (String.intercalate "," csvHeaders ::
              history.map (csvRow fmtDate fmtTime numStr))))
    ∧ (∀ r : LaundryOrderResult, csvRow fmtDate fmtTime numStr r =
        String.intercalate ","
          [fmtDate r.timestamp, fmtTime r.timestamp,
            quoteField r.laundry_service_name,
            quoteField r.shopify_order_number,
            quoteField r.customer_name,
            addressField r.delivery_address,
            weightField numStr r.laundry_weight_kg,
            toFixed2 (r.price.getD 0)])
    ∧ toFixed2 ((none : Option ℚ).getD 0) = "0.00"
    ∧ (∀ q, twoDecimals (toFixed2 q))
    ∧ weightField numStr WeightVal.unclear = "DATA_UNCLEAR"
    ∧ (∀ q, weightField numStr (WeightVal.num q) = numStr q) := by
  refine ⟨rfl, ?_, fun r => rfl, toFixed2_zero, toFixed2_twoDecimals, rfl,
    fun q => rfl⟩
  intro history hne
  rw [exportToCSV, if_neg (by simpa using hne)]
  rw [csvLines, foldl_push_eq_map]
  rfl

/-- C7 witness: exporting the one-record ledger with concrete
environment formatters produces the header row and that record's row. -/
theorem C7_export_shape_witness :
    ([exAcmeJan1] : List LaundryOrderResult) ≠ []
    ∧ exportToCSV exFmtDate exFmtTime exNumStr [exAcmeJan1] =
        some (String.intercalate "\n"
          (String.intercalate "," csvHeaders ::
            [exAcmeJan1].map (csvRow exFmtDate exFmtTime exNumStr))) :=
  ⟨by simp,
    (C7_export_shape exFmtDate exFmtTime exNumStr).2.1 [exAcmeJan1] (by simp)⟩

/-- C8: a quoted CSV string field (double quotes doubled, wrapped in
double quotes) parses back to the original string under standard CSV
unquoting — in particular for the name with an embedded double quote —
and the delivery-address field contains no newline, every embedded
newline having been replaced by a space before quoting. -/
theorem C8_quoting_roundtrip :
    (∀ s, csvUnquote (quoteField s) = some s)
    ∧ csvUnquote (quoteField "O\"Brien") = some "O\"Brien"
    ∧ (∀ a, (addressField a).data.count '\n' = 0) := by
  have hround : ∀ s, csvUnquote (quoteField s) = some s := by
    intro s
    rw [quoteField]
    apply csvUnquote_quoteWrap
    rw [escapeQuotes_data]
    exact unescape_escape s.data
  refine ⟨hround, hround _, ?_⟩
  intro a
  rw [List.count_eq_zero]
  intro h
  rw [addressField, quoteWrap_data, List.mem_cons] at h
  rcases h with h | h
  · exact absurd h (by decide)
  · rcases List.mem_append.mp h with h | h
    · exact collapseNewlines_no_newline _ h
    · rw [List.mem_singleton] at h
      exact absurd h (by decide)

end LaundryTracker
